import Mathlib

/-
  Verification development for the Sakura tree generator and scene state
  machine (src/utils/geometry.ts, src/components/Scene.tsx).

  The embedding is parametric in an ordered field `K` (the code's IEEE
  numbers are modelled as exact field elements) and in a table `MathLib K`
  of the transcendental functions the code calls (Math.sin, Math.cos,
  Math.acos, Math.sqrt, Math.cbrt, Math.pow, Math.PI).  Randomness is
  modelled by an explicit stream `rng : ℕ → I01 K` of samples in [0,1)
  (the range of Math.random()) together with a counter threaded through
  the state; every Math.random() call in the source consumes one stream
  element, in source order.
-/

namespace Sakura

/-- Table of the mathematical primitives used by the source
(Math.sin, Math.cos, Math.acos, Math.sqrt, Math.cbrt, Math.pow, Math.PI). -/
structure MathLib (K : Type) where
  sin : K → K
  cos : K → K
  acos : K → K
  sqrt : K → K
  cbrt : K → K
  powK : K → K → K
  pi : K

/-- The half-open unit interval: the range of Math.random(). -/
def I01 (K : Type) [LinearOrderedField K] : Type := {u : K // 0 ≤ u ∧ u < 1}

/-- THREE.Vector3. -/
structure V3 (K : Type) where
  x : K
  y : K
  z : K

/-- THREE.Color (r,g,b components). -/
structure Col (K : Type) where
  r : K
  g : K
  b : K

variable {K : Type} [LinearOrderedField K] [FloorRing K]

/-- Vector3.add. -/
def V3.add (a b : V3 K) : V3 K := ⟨a.x + b.x, a.y + b.y, a.z + b.z⟩

/-- Vector3.multiplyScalar. -/
def V3.smul (a : V3 K) (s : K) : V3 K := ⟨a.x * s, a.y * s, a.z * s⟩

/-- Vector3.crossVectors. -/
def V3.cross (a b : V3 K) : V3 K :=
  ⟨a.y * b.z - a.z * b.y, a.z * b.x - a.x * b.z, a.x * b.y - a.y * b.x⟩

/-- Vector3.normalize: divide by the length.  (In K, division by a zero
length yields 0 where JS would produce non-finite components; no claim
depends on the value of a normalized zero vector.) -/
def V3.normalize (M : MathLib K) (a : V3 K) : V3 K :=
  let l := M.sqrt (a.x ^ 2 + a.y ^ 2 + a.z ^ 2)
  ⟨a.x / l, a.y / l, a.z / l⟩

/-- Vector3.lerpVectors(a, b, t) = a + (b - a) * t. -/
def V3.lerpV (a b : V3 K) (t : K) : V3 K :=
  ⟨a.x + (b.x - a.x) * t, a.y + (b.y - a.y) * t, a.z + (b.z - a.z) * t⟩

/-- THREE.Color.lerp. -/
def Col.lerpC (a b : Col K) (t : K) : Col K :=
  ⟨a.r + (b.r - a.r) * t, a.g + (b.g - a.g) * t, a.b + (b.b - a.b) * t⟩

/-- The `randomRange(min, max)` helper, applied to a unit sample `u`:
`Math.random() * (max - min) + min`. -/
def rr (mn mx u : K) : K := u * (mx - mn) + mn

/-- Reading the random stream: one Math.random() call at counter `n`. -/
def sample (rng : ℕ → I01 K) (n : ℕ) : K := (rng n).val

/-- The ParticleBuffer class: six parallel attribute arrays.  Vector and
color pushes (three numbers each in the source) are kept structured here;
`toData` flattens them exactly as the source's flat number arrays. -/
structure ParticleBuffer (K : Type) where
  positions : List (V3 K)
  targetPositions : List (V3 K)
  colors : List (Col K)
  sizes : List K
  drifts : List (V3 K)
  phases : List K

/-- ParticleBuffer.add: every emission appends to all six arrays together. -/
def ParticleBuffer.add (b : ParticleBuffer K) (pos targetPos : V3 K) (color : Col K)
    (size : K) (drift : V3 K) (phase : K) : ParticleBuffer K :=
  ⟨b.positions ++ [pos], b.targetPositions ++ [targetPos], b.colors ++ [color],
   b.sizes ++ [size], b.drifts ++ [drift], b.phases ++ [phase]⟩

/-- The flat arrays handed to the GPU (ParticleData in the source). -/
structure ParticleData (K : Type) where
  positions : List K
  targetPositions : List K
  colors : List K
  sizes : List K
  drifts : List K
  phases : List K

/-- Flattening a vector list to x,y,z triples (the source pushes
pos.x, pos.y, pos.z). -/
def flat3 : List (V3 K) → List K
  | [] => []
  | v :: t => v.x :: v.y :: v.z :: flat3 t

/-- Flattening a color list to r,g,b triples. -/
def flatC : List (Col K) → List K
  | [] => []
  | cl :: t => cl.r :: cl.g :: cl.b :: flatC t

/-- ParticleBuffer.toData. -/
def ParticleBuffer.toData (b : ParticleBuffer K) : ParticleData K :=
  ⟨flat3 b.positions, flat3 b.targetPositions, flatC b.colors, b.sizes, flat3 b.drifts, b.phases⟩

/-- Generation-time state: the two buffers, the leaf-node list and the
random-stream counter. -/
structure GenState (K : Type) where
  woodB : ParticleBuffer K
  blossomB : ParticleBuffer K
  leaves : List (V3 K)
  ctr : ℕ

/-- Iterate a loop body `f i` for i = 0, 1, ..., n-1 in order. -/
def iterSt {σ : Type} (f : ℕ → σ → σ) : ℕ → σ → σ
  | 0, s => s
  | n + 1, s => f n (iterSt f n s)

variable (M : MathLib K) (rng : ℕ → I01 K)

/-- getRandomSpacePos: a point on a spherical shell, radius in [80,200).
Consumes three stream samples (r, theta, phi), starting at counter `c`. -/
def getRandomSpacePos (c : ℕ) : V3 K :=
  let r := rr 80 200 (sample rng c)
  let theta := rr 0 (M.pi * 2) (sample rng (c + 1))
  let phi := M.acos (rr (-1) 1 (sample rng (c + 2)))
  ⟨r * M.sin phi * M.cos theta, r * M.sin phi * M.sin theta, r * M.cos phi⟩

/-- Wood palette base color '#1a0b08'. -/
def woodColorBase : Col K := ⟨26 / 255, 11 / 255, 8 / 255⟩

/-- Wood palette highlight color '#3e2b24'. -/
def woodColorVar : Col K := ⟨62 / 255, 43 / 255, 36 / 255⟩

/-- The five-color blossom palette. -/
def blossomColors : List (Col K) :=
  [⟨255 / 255, 183 / 255, 197 / 255⟩, ⟨255 / 255, 192 / 255, 203 / 255⟩,
   ⟨255 / 255, 228 / 255, 225 / 255⟩, ⟨255 / 255, 255 / 255, 255 / 255⟩,
   ⟨255 / 255, 158 / 255, 181 / 255⟩]

/-- One iteration of the wood (skeleton) particle loop in growBranch.
Stream samples are taken in the source's Math.random() call order:
theta, base radius, optional trunk flare, roughness, colorMix, then the
add arguments (space position ×3, size, drift ×3, phase). -/
def emitWoodParticle (isTrunk : Bool) (radius : K) (start endP u v : V3 K)
    (segN i : ℕ) (s : GenState K) : GenState K :=
  let c := s.ctr
  let t : K := (i : K) / (segN : K)
  let pos := V3.lerpV start endP t
  let theta := sample rng c * M.pi * 2
  let r0 := sample rng (c + 1) * radius
  let flareB : Bool := isTrunk && decide (t < 1 / 4)
  let r1 := if flareB then r0 + M.powK ((1 / 4 - t) * 6) (5 / 2) * rr (4 / 5) 2 (sample rng (c + 2)) else r0
  let c1 := if flareB then c + 3 else c + 2
  let roughness := if isTrunk then rr (9 / 10) (6 / 5) (sample rng c1) else rr (9 / 10) (11 / 10) (sample rng c1)
  let r2 := r1 * roughness
  let pos2 := (pos.add (u.smul (M.cos theta * r2))).add (v.smul (M.sin theta * r2))
  let colorMix := sample rng (c1 + 1)
  let woodColor := Col.lerpC woodColorBase woodColorVar (M.powK colorMix 3)
  let sizeBase : K := if isTrunk then 5 else 3
  let size := rr (sizeBase * (9 / 10)) (sizeBase * (15 / 10)) (sample rng (c1 + 5))
  let drift : V3 K := ⟨rr (-(1 / 20)) (1 / 20) (sample rng (c1 + 6)),
                       rr (-(1 / 50)) (1 / 50) (sample rng (c1 + 7)),
                       rr (-(1 / 20)) (1 / 20) (sample rng (c1 + 8))⟩
  let phase := sample rng (c1 + 9) * M.pi * 2
  ⟨s.woodB.add pos2 (getRandomSpacePos M rng (c1 + 2)) woodColor size drift phase,
   s.blossomB, s.leaves, c1 + 10⟩

/-- One iteration of the inner blossom particle loop (90 per cluster).
Sample order: u, v, rRaw, weep test, optional weep amount, color index,
size, drift ×3, space position ×3, phase. -/
def emitBlossomParticle (clusterCenter : V3 K) (spreadX spreadY spreadZ : K)
    (_k : ℕ) (s : GenState K) : GenState K :=
  let c := s.ctr
  let u := sample rng c
  let v := sample rng (c + 1)
  let theta := 2 * M.pi * u
  let phi := M.acos (2 * v - 1)
  let rRaw := M.cbrt (sample rng (c + 2))
  let sinPhi := M.sin phi
  let x := rRaw * sinPhi * M.cos theta
  let y := rRaw * sinPhi * M.sin theta
  let z := rRaw * M.cos phi
  let weepFactor := max 0 (|x| - 2) * (6 / 10)
  let doWeep : Bool := decide ((3 : K) / 10 < sample rng (c + 3))
  let py := if doWeep then clusterCenter.y + y * spreadY - sample rng (c + 4) * (3 + weepFactor * 2)
            else clusterCenter.y + y * spreadY
  let c4 := if doWeep then c + 5 else c + 4
  let p : V3 K := ⟨clusterCenter.x + x * spreadX, py, clusterCenter.z + z * spreadZ⟩
  let colorIdx := (Int.floor (sample rng c4 * 5)).toNat
  let color := (blossomColors (K := K)).getD colorIdx ⟨1, 1, 1⟩
  let sizeVar := (12 / 10 - rRaw) * 6 + rr 0 3 (sample rng (c4 + 1))
  let drift : V3 K := ⟨rr (-(8 / 10)) (8 / 10) (sample rng (c4 + 2)),
                       rr (2 / 10) (16 / 10) (sample rng (c4 + 3)),
                       rr (-(8 / 10)) (8 / 10) (sample rng (c4 + 4))⟩
  let phase := sample rng (c4 + 8) * M.pi * 2
  ⟨s.woodB, s.blossomB.add p (getRandomSpacePos M rng (c4 + 5)) color sizeVar drift phase,
   s.leaves, c4 + 9⟩

/-- One of the five blossom sub-clusters at a branch tip: random cluster
offset (×3), cluster spreads (×3), then 90 particles. -/
def emitCluster (endP : V3 K) (_c : ℕ) (s : GenState K) : GenState K :=
  let c := s.ctr
  let clusterCenter := endP.add ⟨rr (-8) 8 (sample rng c), rr (-4) 8 (sample rng (c + 1)), rr (-8) 8 (sample rng (c + 2))⟩
  let spreadX := rr 6 10 (sample rng (c + 3))
  let spreadY := rr 4 7 (sample rng (c + 4))
  let spreadZ := rr 6 10 (sample rng (c + 5))
  iterSt (emitBlossomParticle M rng clusterCenter spreadX spreadY spreadZ) 90
    ⟨s.woodB, s.blossomB, s.leaves, c + 6⟩

/-- The terminal-branch blossom emission: five clusters. -/
def emitBlossoms (endP : V3 K) (s : GenState K) : GenState K :=
  iterSt (emitCluster M rng endP) 5 s

/-- The child-branch count: `isTrunk ? Math.floor(randomRange(3, 5))
: Math.floor(randomRange(2, 4))`. -/
def branchCountOf (isTrunk : Bool) (u : K) : ℤ :=
  if isTrunk then Int.floor (rr 3 5 u) else Int.floor (rr 2 4 u)

/-- Direction of child branch `i`: azimuthal fan with jitter, randomized
spread angle, upward bias, renormalized.  Consumes two stream samples
(azimuth jitter at `c`, spread at `c+1`). -/
def childDir (isTrunk nearTip : Bool) (direction tangent bitangent : V3 K)
    (bcI : ℤ) (i c : ℕ) : V3 K :=
  let angleStep := M.pi * 2 / (bcI : K)
  let azimuth := (i : K) * angleStep + rr (-(3 / 10)) (3 / 10) (sample rng c)
  let spreadAngle :=
    if isTrunk then rr (3 / 10) (6 / 10) (sample rng (c + 1))
    else if nearTip then rr (4 / 10) (9 / 10) (sample rng (c + 1))
    else rr (3 / 10) (8 / 10) (sample rng (c + 1))
  let xx := M.cos azimuth * M.sin spreadAngle
  let yy := M.sin azimuth * M.sin spreadAngle
  let zz := M.cos spreadAngle
  let d1 := (((direction.smul zz).add (tangent.smul xx)).add (bitangent.smul yy)).normalize M
  let d2 : V3 K := if isTrunk then ⟨d1.x, d1.y + 4 / 10, d1.z⟩ else ⟨d1.x, d1.y + 15 / 100, d1.z⟩
  d2.normalize M

/-- The wood-emission phase of growBranch: segmentParticles =
ceil(length * radius * densityMultiplier) particles along the cylinder. -/
def woodPhase (isTrunk : Bool) (start endP direction axis : V3 K)
    (length radius : K) (s : GenState K) : GenState K :=
  let densityMultiplier : K := if isTrunk then 32 else 12
  let segN := (Int.ceil (length * radius * densityMultiplier)).toNat
  let u := (direction.cross axis).normalize M
  let v := (direction.cross u).normalize M
  iterSt (emitWoodParticle M rng isTrunk radius start endP u v segN) segN s

mutual

/-- The recursive branching function growBranch.  `dep` is the fixed
top-level depth (capturing the closure variable `depth`), `cd` the
remaining depth (`currentDepth`).  Recursion happens only when
`0 < cd`, at `cd - 1`, through the child loop `growChildren`; otherwise
one leaf node is recorded and the blossom clusters are emitted.  (The
source computes end/isTrunk/axis and the wood loop once before the depth
test; here that common prefix is repeated in both arms of the test,
which changes nothing.) -/
def growBranch (dep : ℤ) (cd : ℤ) (start direction : V3 K) (length radius : K)
    (s : GenState K) : GenState K :=
  if h : 0 < cd then
    let endP := start.add (direction.smul length)
    let isTrunk : Bool := decide (cd = dep)
    let axis : V3 K := if (9 : K) / 10 < |direction.y| then ⟨1, 0, 0⟩ else ⟨0, 1, 0⟩
    let s1 := woodPhase M rng isTrunk start endP direction axis length radius s
    let bcI := branchCountOf isTrunk (sample rng s1.ctr)
    let tangent := (direction.cross axis).normalize M
    let bitangent := (direction.cross tangent).normalize M
    let nearTip : Bool := decide (dep - 3 < cd)
    growChildren dep (cd - 1) endP isTrunk nearTip direction tangent bitangent bcI
      (length * (82 / 100)) (radius * (65 / 100)) bcI.toNat
      ⟨s1.woodB, s1.blossomB, s1.leaves, s1.ctr + 1⟩
  else
    let endP := start.add (direction.smul length)
    let isTrunk : Bool := decide (cd = dep)
    let axis : V3 K := if (9 : K) / 10 < |direction.y| then ⟨1, 0, 0⟩ else ⟨0, 1, 0⟩
    let s1 := woodPhase M rng isTrunk start endP direction axis length radius s
    emitBlossoms M rng endP ⟨s1.woodB, s1.blossomB, s1.leaves ++ [endP], s1.ctr⟩
termination_by ((cd + 1).toNat, 0)

/-- The `for (let i = 0; i < branchCount; i++)` child loop of growBranch:
children are grown in ascending order of `i`; child `i` consumes its two
direction samples at the current counter and recurses at depth `cdc`
(the parent's `currentDepth - 1`). -/
def growChildren (dep cdc : ℤ) (endP : V3 K) (isTrunk nearTip : Bool)
    (direction tangent bitangent : V3 K) (bcI : ℤ) (len2 rad2 : K) :
    ℕ → GenState K → GenState K
  | 0, t => t
  | m + 1, t =>
    let t1 := growChildren dep cdc endP isTrunk nearTip direction tangent bitangent bcI
      len2 rad2 m t
    growBranch dep cdc endP
      (childDir M rng isTrunk nearTip direction tangent bitangent bcI m t1.ctr)
      len2 rad2 ⟨t1.woodB, t1.blossomB, t1.leaves, t1.ctr + 2⟩
termination_by m _ => ((cdc + 1).toNat, m)

end

/-- The empty generation state at stream counter `c`. -/
def initState (c : ℕ) : GenState K := ⟨⟨[], [], [], [], [], []⟩, ⟨[], [], [], [], [], []⟩, [], c⟩

/-- The final generation state of a generateTree call starting at stream
counter `c`: the trunk grows upward from startPos with radius 10. -/
def generateTreeState (c : ℕ) (depth : ℤ) (branchLength : K) (startPos : V3 K) : GenState K :=
  growBranch M rng depth depth startPos ⟨0, 1, 0⟩ branchLength 10 (initState c)

/-- The TreeData returned by generateTree. -/
structure TreeData (K : Type) where
  wood : ParticleData K
  blossoms : ParticleData K
  leafNodes : List (V3 K)

/-- generateTree, starting at stream counter `c`; also returns the final
counter (so that a subsequent unseeded call sees the rest of the stream). -/
def generateTreeAt (c : ℕ) (depth : ℤ) (branchLength : K) (startPos : V3 K) : TreeData K × ℕ :=
  let s := generateTreeState M rng c depth branchLength startPos
  (⟨s.woodB.toData, s.blossomB.toData, s.leaves⟩, s.ctr)

/-- The exported generateTree. -/
def generateTree (depth : ℤ) (branchLength : K) (startPos : V3 K) : TreeData K :=
  (generateTreeAt M rng 0 depth branchLength startPos).1

/-- A PhotoData entity.  The picsum URL is represented by its numeric
seed (`index + 420`); rotations are Euler triples. -/
structure PhotoData (K : Type) where
  id : ℕ
  position : V3 K
  rotation : V3 K
  urlSeed : ℕ
  targetSpacePos : V3 K
  targetSpaceRot : V3 K

/-- The forEach loop of createPhotoData.  Per photo the source draws, in
order: shell radius, theta, phi, the three Euler tilt angles, and the
three galaxy rotation angles (nine samples). -/
def photoLoop : List (V3 K) → ℕ → ℕ → List (PhotoData K) × ℕ
  | [], _, c => ([], c)
  | node :: rest, idx, c =>
    let r := rr 100 200 (sample rng c)
    let theta := rr 0 (M.pi * 2) (sample rng (c + 1))
    let phi := M.acos (rr (-1) 1 (sample rng (c + 2)))
    let photo : PhotoData K :=
      ⟨idx, node.add ⟨0, -10, 0⟩,
       ⟨rr (-(15 / 100)) (15 / 100) (sample rng (c + 3)), rr 0 (M.pi * 2) (sample rng (c + 4)),
        rr (-(15 / 100)) (15 / 100) (sample rng (c + 5))⟩,
       idx + 420,
       ⟨r * M.sin phi * M.cos theta, r * M.sin phi * M.sin theta, r * M.cos phi⟩,
       ⟨sample rng (c + 6) * M.pi, sample rng (c + 7) * M.pi, sample rng (c + 8) * M.pi⟩⟩
    let restR := photoLoop rest (idx + 1) (c + 9)
    (photo :: restR.1, restR.2)

/-- Model of `[...leafNodes].sort(() => 0.5 - Math.random())`: an
ECMAScript sort with an inconsistent comparator produces an
implementation-defined permutation of its input, so the shuffle is an
arbitrary permutation-valued function supplied as a parameter. -/
def ShuffleFn (K : Type) : Type :=
  {f : List (V3 K) → List (V3 K) // ∀ l, List.Perm (f l) l}

/-- createPhotoData, starting at stream counter `c`. -/
def createPhotoData (shuffle : ShuffleFn K) (leafNodes : List (V3 K)) (count : ℕ)
    (c : ℕ) : List (PhotoData K) × ℕ :=
  if leafNodes.length = 0 then ([], c)
  else
    let safeCount := min count leafNodes.length
    let chosenNodes := (shuffle.val leafNodes).take safeCount
    photoLoop M rng chosenNodes 0 c

/-- The gesture labels consumed by Scene. -/
inductive Gesture
  | NONE
  | FIST
  | OPEN_HAND
  | ONE_FINGER
  | TWO_FINGERS
deriving DecidableEq

/-- THREE.MathUtils.lerp. -/
def lerpS (x y t : K) : K := x + (y - x) * t

/-- One frame of the Scene expansion update: targetExpansion is
initialized from the CURRENT expansion value, overridden to 0 on FIST
and to 1 on OPEN_HAND, then the value is lerped toward it by
`delta * 2.0`. -/
def expansionStep (v : K) (g : Gesture) (delta : K) : K :=
  let t0 := v
  let t1 := if g = Gesture.FIST then 0 else t0
  let t2 := if g = Gesture.OPEN_HAND then 1 else t1
  lerpS v t2 (delta * 2)

/-- The expansion value over frames with a sustained OPEN_HAND gesture
and fixed per-frame delta, starting from 0. -/
def expansionSeq (delta : K) : ℕ → K
  | 0 => 0
  | n + 1 => expansionStep (expansionSeq delta n) Gesture.OPEN_HAND delta

/-- The Scene useMemo, first call: the rendered tree data
(generateTree({depth: 6, branchLength: 35, startPos: (0,-60,0)})). -/
def sceneTree : TreeData K := (generateTreeAt M rng 0 6 35 ⟨0, -60, 0⟩).1

/-- The Scene useMemo, second call: a second, independent generateTree
invocation with the same parameters, consuming the stream where the
first call left off; its leafNodes feed createPhotoData. -/
def sceneSecondTree : TreeData K × ℕ :=
  generateTreeAt M rng (generateTreeAt M rng 0 6 35 ⟨0, -60, 0⟩).2 6 35 ⟨0, -60, 0⟩

/-- The photo list built by the Scene useMemo:
createPhotoData(generateTree({...}).leafNodes, 16) on the second tree. -/
def scenePhotos (shuffle : ShuffleFn K) : List (PhotoData K) :=
  (createPhotoData M rng shuffle (sceneSecondTree M rng).1.leafNodes 16 (sceneSecondTree M rng).2).1

/-- A concrete all-zero math table, used to instantiate witnesses. -/
def zeroML : MathLib K := ⟨fun _ => 0, fun _ => 0, fun _ => 0, fun _ => 0, fun _ => 0, fun _ _ => 0, 0⟩

/-- A concrete all-zero random stream, used to instantiate witnesses. -/
def zeroRng : ℕ → I01 K := fun _ => ⟨0, le_refl 0, zero_lt_one⟩

/-- The identity shuffle (a valid permutation), used in witnesses. -/
def idShuffle : ShuffleFn K := ⟨fun l => l, fun l => List.Perm.refl l⟩

/-- Parallel-array invariant on a structured buffer: every attribute list
has one record per particle. -/
def aligned (b : ParticleBuffer K) : Prop :=
  b.positions.length = b.sizes.length ∧ b.targetPositions.length = b.sizes.length ∧
  b.colors.length = b.sizes.length ∧ b.drifts.length = b.sizes.length ∧
  b.phases.length = b.sizes.length

/-- Parallel-array invariant on the flat GPU arrays: positions, target
positions, colors and drifts hold exactly three entries per particle;
sizes and phases hold one. -/
def dataAligned (d : ParticleData K) : Prop :=
  d.positions.length = 3 * d.sizes.length ∧ d.targetPositions.length = 3 * d.sizes.length ∧
  d.colors.length = 3 * d.sizes.length ∧ d.drifts.length = 3 * d.sizes.length ∧
  d.phases.length = d.sizes.length

/-- Membership of a vector in the closed spherical shell of radii
[lo, hi] around the origin, by Euclidean distance. -/
def inShell (lo hi : ℝ) (v : V3 ℝ) : Prop :=
  lo ≤ Real.sqrt (v.x ^ 2 + v.y ^ 2 + v.z ^ 2) ∧ Real.sqrt (v.x ^ 2 + v.y ^ 2 + v.z ^ 2) ≤ hi

/-- All galaxy-mode target positions recorded so far lie in the [80,200]
shell (for both the wood and the blossom buffer). -/
def targetsInShell (s : GenState ℝ) : Prop :=
  List.Forall (inShell 80 200) s.woodB.targetPositions ∧
  List.Forall (inShell 80 200) s.blossomB.targetPositions

theorem flat3_length (l : List (V3 K)) : (flat3 l).length = 3 * l.length := by
  induction l with
  | nil => simp [flat3]
  | cons v t ih => simp only [flat3, List.length_cons, ih]; omega

theorem flatC_length (l : List (Col K)) : (flatC l).length = 3 * l.length := by
  induction l with
  | nil => simp [flatC]
  | cons v t ih => simp only [flatC, List.length_cons, ih]; omega

theorem aligned_add (b : ParticleBuffer K) (pos tp : V3 K) (col : Col K) (sz : K)
    (dr : V3 K) (ph : K) (h : aligned b) : aligned (b.add pos tp col sz dr ph) := by
  obtain ⟨h1, h2, h3, h4, h5⟩ := h
  refine ⟨?_, ?_, ?_, ?_, ?_⟩ <;> simp [ParticleBuffer.add, h1, h2, h3, h4, h5]

theorem toData_aligned (b : ParticleBuffer K) (h : aligned b) : dataAligned b.toData := by
  obtain ⟨h1, h2, h3, h4, h5⟩ := h
  simp only [dataAligned, ParticleBuffer.toData, flat3_length, flatC_length, h1, h2, h3, h4, h5]
  exact ⟨trivial, trivial, trivial, trivial, trivial⟩

theorem iterSt_pres {σ : Type} (P : σ → Prop) (f : ℕ → σ → σ)
    (h : ∀ i s, P s → P (f i s)) : ∀ n s, P s → P (iterSt f n s)
  | 0, _, hs => hs
  | n + 1, s, hs => h n _ (iterSt_pres P f h n s hs)

theorem iterSt_count {σ : Type} (m : σ → ℕ) (k : ℕ) (f : ℕ → σ → σ)
    (h : ∀ i s, m (f i s) = m s + k) : ∀ n s, m (iterSt f n s) = m s + n * k
  | 0, s => by simp [iterSt]
  | n + 1, s => by rw [iterSt, h, iterSt_count m k f h n s]; ring

theorem emitWoodParticle_leaves (it : Bool) (rad : K) (st en u v : V3 K) (sN i : ℕ)
    (s : GenState K) : (emitWoodParticle M rng it rad st en u v sN i s).leaves = s.leaves := rfl

theorem emitWoodParticle_blossomB (it : Bool) (rad : K) (st en u v : V3 K) (sN i : ℕ)
    (s : GenState K) : (emitWoodParticle M rng it rad st en u v sN i s).blossomB = s.blossomB := rfl

theorem emitWoodParticle_woodB (it : Bool) (rad : K) (st en u v : V3 K) (sN i : ℕ)
    (s : GenState K) :
    ∃ pos col sz dr ph cc, (emitWoodParticle M rng it rad st en u v sN i s).woodB
      = s.woodB.add pos (getRandomSpacePos M rng cc) col sz dr ph :=
  ⟨_, _, _, _, _, _, rfl⟩

theorem emitBlossomParticle_woodB (cc : V3 K) (sx sy sz : K) (k : ℕ) (s : GenState K) :
    (emitBlossomParticle M rng cc sx sy sz k s).woodB = s.woodB := rfl

theorem emitBlossomParticle_leaves (cc : V3 K) (sx sy sz : K) (k : ℕ) (s : GenState K) :
    (emitBlossomParticle M rng cc sx sy sz k s).leaves = s.leaves := rfl

theorem emitBlossomParticle_blossomB (cc : V3 K) (sx sy sz : K) (k : ℕ) (s : GenState K) :
    ∃ pos col szv dr ph c, (emitBlossomParticle M rng cc sx sy sz k s).blossomB
      = s.blossomB.add pos (getRandomSpacePos M rng c) col szv dr ph :=
  ⟨_, _, _, _, _, _, rfl⟩

theorem emitBlossomParticle_blossom_sizes (cc : V3 K) (sx sy sz : K) (k : ℕ) (s : GenState K) :
    (emitBlossomParticle M rng cc sx sy sz k s).blossomB.sizes.length
      = s.blossomB.sizes.length + 1 := by
  obtain ⟨pos, col, szv, dr, ph, c, hb⟩ := emitBlossomParticle_blossomB M rng cc sx sy sz k s
  rw [hb]
  simp [ParticleBuffer.add]

theorem woodPhase_pres (P : GenState K → Prop)
    (hW : ∀ it rad st en u v sN i s, P s → P (emitWoodParticle M rng it rad st en u v sN i s)) :
    ∀ (it : Bool) (st en dir ax : V3 K) (len rad : K) (s : GenState K),
      P s → P (woodPhase M rng it st en dir ax len rad s) := by
  intro it st en dir ax len rad s hs
  exact iterSt_pres P _ (fun i t ht => hW _ _ _ _ _ _ _ i t ht) _ s hs

theorem woodPhase_leaves (it : Bool) (st en dir ax : V3 K) (len rad : K) (s : GenState K) :
    (woodPhase M rng it st en dir ax len rad s).leaves = s.leaves :=
  woodPhase_pres M rng (fun t => t.leaves = s.leaves)
    (fun _ _ _ _ _ _ _ _ _ ht => ht)
    it st en dir ax len rad s rfl

theorem woodPhase_blossomB (it : Bool) (st en dir ax : V3 K) (len rad : K) (s : GenState K) :
    (woodPhase M rng it st en dir ax len rad s).blossomB = s.blossomB :=
  woodPhase_pres M rng (fun t => t.blossomB = s.blossomB)
    (fun _ _ _ _ _ _ _ _ _ ht => ht)
    it st en dir ax len rad s rfl

theorem emitCluster_pres (P : GenState K → Prop)
    (hB : ∀ cc sx sy sz k s, P s → P (emitBlossomParticle M rng cc sx sy sz k s))
    (hctr : ∀ b1 b2 l c1 c2, P ⟨b1, b2, l, c1⟩ → P ⟨b1, b2, l, c2⟩) :
    ∀ (e : V3 K) (i : ℕ) (s : GenState K), P s → P (emitCluster M rng e i s) := by
  intro e i s hs
  exact iterSt_pres P _ (fun j t ht => hB _ _ _ _ j t ht) 90 _
    (hctr s.woodB s.blossomB s.leaves s.ctr (s.ctr + 6) hs)

theorem emitCluster_woodB (e : V3 K) (i : ℕ) (s : GenState K) :
    (emitCluster M rng e i s).woodB = s.woodB :=
  emitCluster_pres M rng (fun t => t.woodB = s.woodB)
    (fun _ _ _ _ _ _ ht => ht)
    (fun _ _ _ _ _ ht => ht) e i s rfl

theorem emitCluster_leaves (e : V3 K) (i : ℕ) (s : GenState K) :
    (emitCluster M rng e i s).leaves = s.leaves :=
  emitCluster_pres M rng (fun t => t.leaves = s.leaves)
    (fun _ _ _ _ _ _ ht => ht)
    (fun _ _ _ _ _ ht => ht) e i s rfl

theorem emitCluster_blossom_sizes (e : V3 K) (i : ℕ) (s : GenState K) :
    (emitCluster M rng e i s).blossomB.sizes.length = s.blossomB.sizes.length + 90 := by
  simp only [emitCluster]
  rw [iterSt_count (fun t => t.blossomB.sizes.length) 1 _
    (fun j t => emitBlossomParticle_blossom_sizes M rng _ _ _ _ j t) 90 _]

theorem emitBlossoms_pres (P : GenState K → Prop)
    (hB : ∀ cc sx sy sz k s, P s → P (emitBlossomParticle M rng cc sx sy sz k s))
    (hctr : ∀ b1 b2 l c1 c2, P ⟨b1, b2, l, c1⟩ → P ⟨b1, b2, l, c2⟩) :
    ∀ (e : V3 K) (s : GenState K), P s → P (emitBlossoms M rng e s) := by
  intro e s hs
  exact iterSt_pres P _ (fun i t ht => emitCluster_pres M rng P hB hctr e i t ht) 5 s hs

theorem emitBlossoms_leaves (e : V3 K) (s : GenState K) :
    (emitBlossoms M rng e s).leaves = s.leaves :=
  emitBlossoms_pres M rng (fun t => t.leaves = s.leaves)
    (fun _ _ _ _ _ _ ht => ht)
    (fun _ _ _ _ _ ht => ht) e s rfl

theorem emitBlossoms_woodB (e : V3 K) (s : GenState K) :
    (emitBlossoms M rng e s).woodB = s.woodB :=
  emitBlossoms_pres M rng (fun t => t.woodB = s.woodB)
    (fun _ _ _ _ _ _ ht => ht)
    (fun _ _ _ _ _ ht => ht) e s rfl

theorem emitBlossoms_blossom_sizes (e : V3 K) (s : GenState K) :
    (emitBlossoms M rng e s).blossomB.sizes.length = s.blossomB.sizes.length + 450 := by
  simp only [emitBlossoms]
  rw [iterSt_count (fun t => t.blossomB.sizes.length) 90 _
    (fun i t => emitCluster_blossom_sizes M rng _ i t) 5 _]

theorem growBranch_pres (P : GenState K → Prop)
    (hW : ∀ it rad st en u v sN i s, P s → P (emitWoodParticle M rng it rad st en u v sN i s))
    (hB : ∀ cc sx sy sz k s, P s → P (emitBlossomParticle M rng cc sx sy sz k s))
    (hleaf : ∀ e b1 b2 l c, P ⟨b1, b2, l, c⟩ → P ⟨b1, b2, l ++ [e], c⟩)
    (hctr : ∀ b1 b2 l c1 c2, P ⟨b1, b2, l, c1⟩ → P ⟨b1, b2, l, c2⟩) :
    ∀ (fuel : ℕ) (cd : ℤ), (cd + 1).toNat ≤ fuel →
      ∀ (dep : ℤ) (st dir : V3 K) (len rad : K) (s : GenState K), P s →
        P (growBranch M rng dep cd st dir len rad s) := by
  intro fuel
  induction fuel with
  | zero =>
    intro cd hcd dep st dir len rad s hs
    rw [growBranch, dif_neg (by omega : ¬ 0 < cd)]
    exact emitBlossoms_pres M rng P hB hctr _ _
      (hleaf _ _ _ _ _ (woodPhase_pres M rng P hW _ _ _ _ _ _ _ s hs))
  | succ n ih =>
    intro cd hcd dep st dir len rad s hs
    by_cases h : 0 < cd
    · rw [growBranch, dif_pos h]
      have hgc : ∀ (e : V3 K) (it nt : Bool) (dr tg bt : V3 K) (bc : ℤ) (l2 r2 : K)
          (m : ℕ) (t : GenState K), P t →
          P (growChildren M rng dep (cd - 1) e it nt dr tg bt bc l2 r2 m t) := by
        intro e it nt dr tg bt bc l2 r2 m
        induction m with
        | zero => intro t ht; rw [growChildren]; exact ht
        | succ mm ihm =>
          intro t ht
          rw [growChildren]
          exact ih (cd - 1) (by omega) dep _ _ _ _ _ (hctr _ _ _ _ _ (ihm t ht))
      exact hgc _ _ _ _ _ _ _ _ _ _ _
        (hctr _ _ _ _ _ (woodPhase_pres M rng P hW _ _ _ _ _ _ _ s hs))
    · rw [growBranch, dif_neg h]
      exact emitBlossoms_pres M rng P hB hctr _ _
        (hleaf _ _ _ _ _ (woodPhase_pres M rng P hW _ _ _ _ _ _ _ s hs))

/-- Trunk branch counts lie in [3,4]: randomRange(3,5) lies in [3,5) and
Math.floor of it is 3 or 4 (never 5). -/
theorem branchCount_trunk_bounds (u : K) (h0 : 0 ≤ u) (h1 : u < 1) :
    3 ≤ branchCountOf true u ∧ branchCountOf true u ≤ 4 := by
  have hb : branchCountOf true u = ⌊rr (3 : K) 5 u⌋ := by simp [branchCountOf]
  rw [hb]
  constructor
  · rw [Int.le_floor]
    push_cast
    unfold rr
    nlinarith
  · have h5 : ⌊rr (3 : K) 5 u⌋ < 5 := by
      rw [Int.floor_lt]
      push_cast
      unfold rr
      nlinarith
    omega

/-- Non-trunk branch counts lie in [2,3]: randomRange(2,4) lies in [2,4)
and Math.floor of it is 2 or 3 (never 4). -/
theorem branchCount_nontrunk_bounds (u : K) (h0 : 0 ≤ u) (h1 : u < 1) :
    2 ≤ branchCountOf false u ∧ branchCountOf false u ≤ 3 := by
  have hb : branchCountOf false u = ⌊rr (2 : K) 4 u⌋ := by simp [branchCountOf]
  rw [hb]
  constructor
  · rw [Int.le_floor]
    push_cast
    unfold rr
    nlinarith
  · have h4 : ⌊rr (2 : K) 4 u⌋ < 4 := by
      rw [Int.floor_lt]
      push_cast
      unfold rr
      nlinarith
    omega

theorem branchCount_toNat_bounds (it : Bool) (u : K) (h0 : 0 ≤ u) (h1 : u < 1) :
    2 ≤ (branchCountOf it u).toNat ∧ (branchCountOf it u).toNat ≤ 4 := by
  cases it
  · have := branchCount_nontrunk_bounds u h0 h1
    omega
  · have := branchCount_trunk_bounds u h0 h1
    omega

/-- Leaf and blossom accounting for growBranch: it adds `k` leaf nodes
with `1 ≤ k ≤ 4 ^ cd.toNat`, and exactly `450 * k` blossom particles. -/
theorem growBranch_counts :
    ∀ (fuel : ℕ) (cd : ℤ), (cd + 1).toNat ≤ fuel →
      ∀ (dep : ℤ) (st dir : V3 K) (len rad : K) (s : GenState K),
        ∃ k : ℕ, 1 ≤ k ∧ k ≤ 4 ^ cd.toNat ∧
          (growBranch M rng dep cd st dir len rad s).leaves.length = s.leaves.length + k ∧
          (growBranch M rng dep cd st dir len rad s).blossomB.sizes.length
            = s.blossomB.sizes.length + 450 * k := by
  intro fuel
  induction fuel with
  | zero =>
    intro cd hcd dep st dir len rad s
    refine ⟨1, le_refl 1, Nat.one_le_pow _ _ (by norm_num), ?_, ?_⟩
    · rw [growBranch, dif_neg (by omega : ¬ 0 < cd)]
      simp [emitBlossoms_leaves, woodPhase_leaves]
    · rw [growBranch, dif_neg (by omega : ¬ 0 < cd)]
      simp [emitBlossoms_blossom_sizes, woodPhase_blossomB]
  | succ n ih =>
    intro cd hcd dep st dir len rad s
    by_cases h : 0 < cd
    · have hgc : ∀ (e : V3 K) (it nt : Bool) (dr tg bt : V3 K) (bc : ℤ) (l2 r2 : K)
          (m : ℕ) (t : GenState K), ∃ j : ℕ, m ≤ j ∧ j ≤ m * 4 ^ (cd - 1).toNat ∧
          (growChildren M rng dep (cd - 1) e it nt dr tg bt bc l2 r2 m t).leaves.length
            = t.leaves.length + j ∧
          (growChildren M rng dep (cd - 1) e it nt dr tg bt bc l2 r2 m t).blossomB.sizes.length
            = t.blossomB.sizes.length + 450 * j := by
        intro e it nt dr tg bt bc l2 r2 m
        induction m with
        | zero =>
          intro t
          exact ⟨0, le_refl 0, Nat.zero_le _, by simp [growChildren], by simp [growChildren]⟩
        | succ mm ihm =>
          intro t
          obtain ⟨j1, ha1, ha2, ha3, ha4⟩ := ihm t
          obtain ⟨k2, hb1, hb2, hb3, hb4⟩ := ih (cd - 1) (by omega) dep e
            (childDir M rng it nt dr tg bt bc mm
              (growChildren M rng dep (cd - 1) e it nt dr tg bt bc l2 r2 mm t).ctr)
            l2 r2
            ⟨(growChildren M rng dep (cd - 1) e it nt dr tg bt bc l2 r2 mm t).woodB,
             (growChildren M rng dep (cd - 1) e it nt dr tg bt bc l2 r2 mm t).blossomB,
             (growChildren M rng dep (cd - 1) e it nt dr tg bt bc l2 r2 mm t).leaves,
             (growChildren M rng dep (cd - 1) e it nt dr tg bt bc l2 r2 mm t).ctr + 2⟩
          refine ⟨j1 + k2, by omega, ?_, ?_, ?_⟩
          · have hsucc : (mm + 1) * 4 ^ (cd - 1).toNat
                = mm * 4 ^ (cd - 1).toNat + 4 ^ (cd - 1).toNat := Nat.succ_mul _ _
            omega
          · rw [growChildren]
            rw [hb3]
            simp only [ha3]
            omega
          · rw [growChildren]
            rw [hb4]
            simp only [ha4]
            ring
      rw [growBranch, dif_pos h]
      simp only []
      have hu0 := (rng (woodPhase M rng (decide (cd = dep)) st (st.add (dir.smul len)) dir
        (if (9 : K) / 10 < |dir.y| then ⟨1, 0, 0⟩ else ⟨0, 1, 0⟩) len rad s).ctr).2
      obtain ⟨j, hj1, hj2, hj3, hj4⟩ := hgc _ _ _ _ _ _ _ _ _ _ _
      have hb := branchCount_toNat_bounds (K := K) (decide (cd = dep))
        (sample rng (woodPhase M rng (decide (cd = dep)) st (st.add (dir.smul len)) dir
          (if (9 : K) / 10 < |dir.y| then ⟨1, 0, 0⟩ else ⟨0, 1, 0⟩) len rad s).ctr)
        hu0.1 hu0.2
      refine ⟨j, ?g1, ?g2, ?g3, ?g4⟩
      case g3 =>
        rw [hj3]
        simp [woodPhase_leaves]
      case g4 =>
        rw [hj4]
        simp [woodPhase_blossomB]
      case g1 => omega
      case g2 =>
        have hpow : (4 : ℕ) ^ cd.toNat = 4 ^ (cd - 1).toNat * 4 := by
          have hh : cd.toNat = (cd - 1).toNat + 1 := by omega
          rw [hh, pow_succ]
        have hle : j ≤ 4 * 4 ^ (cd - 1).toNat := by
          calc j ≤ _ := hj2
            _ ≤ 4 * 4 ^ (cd - 1).toNat := by
              have := Nat.mul_le_mul_right (4 ^ (cd - 1).toNat) hb.2
              omega
        omega
    · refine ⟨1, le_refl 1, Nat.one_le_pow _ _ (by norm_num), ?_, ?_⟩
      · rw [growBranch, dif_neg h]
        simp [emitBlossoms_leaves, woodPhase_leaves]
      · rw [growBranch, dif_neg h]
        simp [emitBlossoms_blossom_sizes, woodPhase_blossomB]

theorem rr_ge (mn mx u : K) (h0 : 0 ≤ u) (hm : mn ≤ mx) : mn ≤ rr mn mx u := by
  unfold rr
  nlinarith

theorem rr_lt (mn mx u : K) (h1 : u < 1) (hm : mn < mx) : rr mn mx u < mx := by
  unfold rr
  nlinarith

theorem forall_append_one {α : Type} (p : α → Prop) (l : List α) (x : α) :
    (l ++ [x]).Forall p ↔ l.Forall p ∧ p x := by
  simp [List.forall_iff_forall_mem, List.mem_append, or_imp, forall_and, forall_eq]

/-- A point r·(sinφ·cosθ, sinφ·sinθ, cosφ) lies at Euclidean distance
|r| from the origin whenever the sine/cosine pairs satisfy the
Pythagorean identity. -/
theorem spherePoint_shell (sinT cosT sinP cosP r lo hi : ℝ)
    (hT : sinT ^ 2 + cosT ^ 2 = 1) (hP : sinP ^ 2 + cosP ^ 2 = 1)
    (hlo0 : 0 ≤ lo) (hlo : lo ≤ r) (hhi : r ≤ hi) :
    inShell lo hi ⟨r * sinP * cosT, r * sinP * sinT, r * cosP⟩ := by
  have hr0 : 0 ≤ r := le_trans hlo0 hlo
  have hsq : (r * sinP * cosT) ^ 2 + (r * sinP * sinT) ^ 2 + (r * cosP) ^ 2 = r ^ 2 := by
    linear_combination (r ^ 2 * sinP ^ 2) * hT + r ^ 2 * hP
  have hshell : Real.sqrt ((⟨r * sinP * cosT, r * sinP * sinT, r * cosP⟩ : V3 ℝ).x ^ 2 +
      (⟨r * sinP * cosT, r * sinP * sinT, r * cosP⟩ : V3 ℝ).y ^ 2 +
      (⟨r * sinP * cosT, r * sinP * sinT, r * cosP⟩ : V3 ℝ).z ^ 2) = r := by
    show Real.sqrt ((r * sinP * cosT) ^ 2 + (r * sinP * sinT) ^ 2 + (r * cosP) ^ 2) = r
    rw [hsq, Real.sqrt_sq hr0]
  exact ⟨by rw [hshell]; exact hlo, by rw [hshell]; exact hhi⟩

theorem getRandomSpacePos_shell (M : MathLib ℝ) (hs : M.sin = Real.sin)
    (hc : M.cos = Real.cos) (rng : ℕ → I01 ℝ) (c : ℕ) :
    inShell 80 200 (getRandomSpacePos M rng c) := by
  have h0 := (rng c).2
  simp only [getRandomSpacePos, hs, hc]
  exact spherePoint_shell _ _ _ _ _ _ _ (Real.sin_sq_add_cos_sq _) (Real.sin_sq_add_cos_sq _)
    (by norm_num) (rr_ge 80 200 _ h0.1 (by norm_num))
    (le_of_lt (rr_lt 80 200 _ h0.2 (by norm_num)))

theorem emitWood_shell (M : MathLib ℝ) (hs : M.sin = Real.sin) (hc : M.cos = Real.cos)
    (rng : ℕ → I01 ℝ) :
    ∀ (it : Bool) (rad : ℝ) (st en u v : V3 ℝ) (sN i : ℕ) (s : GenState ℝ),
      targetsInShell s → targetsInShell (emitWoodParticle M rng it rad st en u v sN i s) := by
  intro it rad st en u v sN i s h
  obtain ⟨pos, col, sz, dr, ph, cc, hw⟩ := emitWoodParticle_woodB M rng it rad st en u v sN i s
  refine ⟨?_, ?_⟩
  · rw [hw]
    simp only [ParticleBuffer.add]
    rw [forall_append_one]
    exact ⟨h.1, getRandomSpacePos_shell M hs hc rng cc⟩
  · rw [emitWoodParticle_blossomB]
    exact h.2

theorem emitBlossom_shell (M : MathLib ℝ) (hs : M.sin = Real.sin) (hc : M.cos = Real.cos)
    (rng : ℕ → I01 ℝ) :
    ∀ (cc : V3 ℝ) (sx sy sz : ℝ) (k : ℕ) (s : GenState ℝ),
      targetsInShell s → targetsInShell (emitBlossomParticle M rng cc sx sy sz k s) := by
  intro cc sx sy sz k s h
  obtain ⟨pos, col, szv, dr, ph, c, hb⟩ := emitBlossomParticle_blossomB M rng cc sx sy sz k s
  refine ⟨?_, ?_⟩
  · rw [emitBlossomParticle_woodB]
    exact h.1
  · rw [hb]
    simp only [ParticleBuffer.add]
    rw [forall_append_one]
    exact ⟨h.2, getRandomSpacePos_shell M hs hc rng c⟩

theorem generateTreeState_shell (M : MathLib ℝ) (hs : M.sin = Real.sin)
    (hc : M.cos = Real.cos) (rng : ℕ → I01 ℝ) (c : ℕ) (dep : ℤ) (len : ℝ) (start : V3 ℝ) :
    targetsInShell (generateTreeState M rng c dep len start) :=
  growBranch_pres M rng targetsInShell (emitWood_shell M hs hc rng) (emitBlossom_shell M hs hc rng)
    (fun _ _ _ _ _ h => h) (fun _ _ _ _ _ h => h)
    ((dep + 1).toNat) dep (le_refl _) dep start ⟨0, 1, 0⟩ len 10 (initState c)
    ⟨trivial, trivial⟩

theorem generateTreeState_aligned (c : ℕ) (dep : ℤ) (len : K) (start : V3 K) :
    aligned (generateTreeState M rng c dep len start).woodB ∧
    aligned (generateTreeState M rng c dep len start).blossomB := by
  refine growBranch_pres M rng (fun s => aligned s.woodB ∧ aligned s.blossomB)
    ?_ ?_ (fun _ _ _ _ _ h => h) (fun _ _ _ _ _ h => h)
    ((dep + 1).toNat) dep (le_refl _) dep start ⟨0, 1, 0⟩ len 10 (initState c)
    ⟨⟨rfl, rfl, rfl, rfl, rfl⟩, ⟨rfl, rfl, rfl, rfl, rfl⟩⟩
  · intro it rad st en u v sN i s h
    obtain ⟨pos, col, sz, dr, ph, cc, hw⟩ := emitWoodParticle_woodB M rng it rad st en u v sN i s
    exact ⟨by rw [hw]; exact aligned_add _ _ _ _ _ _ _ h.1,
           by rw [emitWoodParticle_blossomB]; exact h.2⟩
  · intro cc sx sy sz k s h
    obtain ⟨pos, col, szv, dr, ph, c2, hb⟩ := emitBlossomParticle_blossomB M rng cc sx sy sz k s
    exact ⟨by rw [emitBlossomParticle_woodB]; exact h.1,
           by rw [hb]; exact aligned_add _ _ _ _ _ _ _ h.2⟩

theorem generateTreeState_counts (c : ℕ) (depth : ℤ) (branchLength : K) (startPos : V3 K) :
    ∃ k : ℕ, 1 ≤ k ∧ k ≤ 4 ^ depth.toNat ∧
      (generateTreeState M rng c depth branchLength startPos).leaves.length = k ∧
      (generateTreeState M rng c depth branchLength startPos).blossomB.sizes.length = 450 * k := by
  obtain ⟨k, h1, h2, h3, h4⟩ := growBranch_counts M rng ((depth + 1).toNat) depth (le_refl _)
    depth startPos ⟨0, 1, 0⟩ branchLength 10 (initState c)
  refine ⟨k, h1, h2, ?_, ?_⟩
  · simpa [generateTreeState, initState] using h3
  · simpa [generateTreeState, initState] using h4

theorem photoLoop_length (l : List (V3 K)) :
    ∀ (idx c : ℕ), (photoLoop M rng l idx c).1.length = l.length := by
  induction l with
  | nil => intro idx c; simp [photoLoop]
  | cons nd tl ih => intro idx c; simp [photoLoop, ih]

theorem photoLoop_positions (l : List (V3 K)) :
    ∀ (idx c : ℕ), (photoLoop M rng l idx c).1.map PhotoData.position
      = l.map (fun nd => nd.add ⟨0, -10, 0⟩) := by
  induction l with
  | nil => intro idx c; simp [photoLoop]
  | cons nd tl ih => intro idx c; simp [photoLoop, ih]

theorem photoLoop_targets_shell (M : MathLib ℝ) (hs : M.sin = Real.sin)
    (hc : M.cos = Real.cos) (rng : ℕ → I01 ℝ) (l : List (V3 ℝ)) :
    ∀ (idx c : ℕ), List.Forall (fun p : PhotoData ℝ => inShell 100 200 p.targetSpacePos)
      (photoLoop M rng l idx c).1 := by
  induction l with
  | nil => intro idx c; simp [photoLoop]
  | cons nd tl ih =>
    intro idx c
    have h0 := (rng c).2
    rw [photoLoop]
    simp only []
    rw [List.forall_cons]
    refine ⟨?_, ih _ _⟩
    show inShell 100 200 (⟨rr 100 200 (sample rng c) * M.sin (M.acos (rr (-1) 1 (sample rng (c + 2))))
        * M.cos (rr 0 (M.pi * 2) (sample rng (c + 1))),
      rr 100 200 (sample rng c) * M.sin (M.acos (rr (-1) 1 (sample rng (c + 2))))
        * M.sin (rr 0 (M.pi * 2) (sample rng (c + 1))),
      rr 100 200 (sample rng c) * M.cos (M.acos (rr (-1) 1 (sample rng (c + 2))))⟩ : V3 ℝ)
    rw [hs, hc]
    exact spherePoint_shell _ _ _ _ _ _ _ (Real.sin_sq_add_cos_sq _) (Real.sin_sq_add_cos_sq _)
      (by norm_num) (rr_ge 100 200 _ h0.1 (by norm_num))
      (le_of_lt (rr_lt 100 200 _ h0.2 (by norm_num)))

theorem createPhotoData_length (shuffle : ShuffleFn K) (leafNodes : List (V3 K)) (count c : ℕ) :
    (createPhotoData M rng shuffle leafNodes count c).1.length = min count leafNodes.length := by
  by_cases hl : leafNodes.length = 0
  · simp [createPhotoData, hl]
  · simp only [createPhotoData, if_neg hl]
    rw [photoLoop_length, List.length_take, (shuffle.2 leafNodes).length_eq]
    omega

theorem createPhotoData_positions (shuffle : ShuffleFn K) (leafNodes : List (V3 K)) (count c : ℕ) :
    ∃ chosen : List (V3 K), chosen.Subperm leafNodes ∧
      (createPhotoData M rng shuffle leafNodes count c).1.map PhotoData.position
        = chosen.map (fun nd => nd.add ⟨0, -10, 0⟩) := by
  by_cases hl : leafNodes.length = 0
  · refine ⟨[], List.nil_subperm, ?_⟩
    simp [createPhotoData, hl]
  · refine ⟨(shuffle.val leafNodes).take (min count leafNodes.length), ?_, ?_⟩
    · exact ((List.take_sublist _ _).subperm).trans (shuffle.2 leafNodes).subperm
    · simp only [createPhotoData, if_neg hl]
      exact photoLoop_positions M rng _ 0 c

theorem createPhotoData_targets_shell (M : MathLib ℝ) (hs : M.sin = Real.sin)
    (hc : M.cos = Real.cos) (rng : ℕ → I01 ℝ) (shuffle : ShuffleFn ℝ)
    (leafNodes : List (V3 ℝ)) (count c : ℕ) :
    List.Forall (fun p : PhotoData ℝ => inShell 100 200 p.targetSpacePos)
      (createPhotoData M rng shuffle leafNodes count c).1 := by
  by_cases hl : leafNodes.length = 0
  · simp [createPhotoData, hl]
  · simp only [createPhotoData, if_neg hl]
    exact photoLoop_targets_shell M hs hc rng _ 0 c

theorem expansionStep_open (v delta : K) :
    expansionStep v Gesture.OPEN_HAND delta = v + (1 - v) * (delta * 2) := by
  simp [expansionStep, lerpS]

/-- The leaf-node list returned by generateTree is the generation
state's leaf list (definitional repackaging). -/
theorem generateTree_leafNodes_eq (depth : ℤ) (branchLength : K) (startPos : V3 K) :
    (generateTree M rng depth branchLength startPos).leafNodes
      = (generateTreeState M rng 0 depth branchLength startPos).leaves := rfl

/-- The flat blossom size array returned by generateTree is the
generation state's blossom size list (toData keeps sizes as-is). -/
theorem generateTree_blossom_sizes_eq (depth : ℤ) (branchLength : K) (startPos : V3 K) :
    (generateTree M rng depth branchLength startPos).blossoms.sizes
      = (generateTreeState M rng 0 depth branchLength startPos).blossomB.sizes := rfl

theorem expansionSeq_closed (delta : ℝ) :
    ∀ n, expansionSeq delta n = 1 - (1 - delta * 2) ^ n := by
  intro n
  induction n with
  | zero => simp [expansionSeq]
  | succ m ih =>
    rw [expansionSeq, expansionStep_open, ih, pow_succ]
    ring

end Sakura

namespace Sakura

/-- C1: for every call to generateTree (any parameters, any math table,
any random stream), the returned wood and blossom particle sets have
parallel flat attribute arrays: positions, targetPositions, colors and
drifts hold exactly three entries per particle, sizes and phases one
entry per particle, with all counts derived from the same particle count
(every emission appends to all arrays together, see ParticleBuffer.add). -/
theorem c1_parallel_attribute_arrays (K : Type) [LinearOrderedField K] [FloorRing K]
    (M : MathLib K) (rng : ℕ → I01 K) (depth : ℤ) (branchLength : K) (startPos : V3 K) :
    dataAligned (generateTree M rng depth branchLength startPos).wood ∧
    dataAligned (generateTree M rng depth branchLength startPos).blossoms := by
  have h := generateTreeState_aligned M rng 0 depth branchLength startPos
  exact ⟨toData_aligned _ h.1, toData_aligned _ h.2⟩

/-- C2: for every depth ≥ 0 the generator terminates (the embedding is a
total function, recursion being bounded by the depth counter which
decreases by exactly one per level), producing at least one and at most
4 ^ depth leaf nodes, and at most 450 · 4 ^ depth blossom particles. -/
theorem c2_generation_terminates_bounded (K : Type) [LinearOrderedField K] [FloorRing K]
    (M : MathLib K) (rng : ℕ → I01 K) (depth : ℤ) (branchLength : K) (startPos : V3 K)
    (hdep : 0 ≤ depth) :
    1 ≤ (generateTree M rng depth branchLength startPos).leafNodes.length ∧
    (generateTree M rng depth branchLength startPos).leafNodes.length ≤ 4 ^ depth.toNat ∧
    (generateTree M rng depth branchLength startPos).blossoms.sizes.length
      ≤ 450 * 4 ^ depth.toNat := by
  obtain ⟨k, h1, h2, h3, h4⟩ := generateTreeState_counts M rng 0 depth branchLength startPos
  have hl : (generateTree M rng depth branchLength startPos).leafNodes.length = k := h3
  have hb : (generateTree M rng depth branchLength startPos).blossoms.sizes.length = 450 * k := h4
  exact ⟨by omega, by omega, by omega⟩

/-- Witness for C2 at concrete inputs (K = ℚ, the all-zero math table
and stream, depth 2). -/
theorem c2_generation_terminates_bounded_witness :
    (0 : ℤ) ≤ 2 ∧
    (1 ≤ (generateTree (zeroML (K := ℚ)) zeroRng 2 10 ⟨0, 0, 0⟩).leafNodes.length ∧
     (generateTree (zeroML (K := ℚ)) zeroRng 2 10 ⟨0, 0, 0⟩).leafNodes.length ≤ 4 ^ (2 : ℤ).toNat ∧
     (generateTree (zeroML (K := ℚ)) zeroRng 2 10 ⟨0, 0, 0⟩).blossoms.sizes.length
       ≤ 450 * 4 ^ (2 : ℤ).toNat) :=
  ⟨by decide, c2_generation_terminates_bounded ℚ zeroML zeroRng 2 10 ⟨0, 0, 0⟩ (by decide)⟩

/-- C3 counterexample: generateTree performs no parameter validation.
Called with depth = -1 it does NOT fail fast: it returns normally, with
one leaf node and a full 450-particle blossom set (shown here at
concrete inputs: K = ℚ, the all-zero math table and stream). -/
theorem c3_counterexample_no_failfast :
    (generateTree (zeroML (K := ℚ)) zeroRng (-1) 10 ⟨0, 0, 0⟩).leafNodes.length = 1 ∧
    (generateTree (zeroML (K := ℚ)) zeroRng (-1) 10 ⟨0, 0, 0⟩).blossoms.sizes.length = 450 := by
  rw [generateTree_leafNodes_eq, generateTree_blossom_sizes_eq]
  obtain ⟨k, h1, h2, h3, h4⟩ :=
    generateTreeState_counts (zeroML (K := ℚ)) zeroRng 0 (-1) 10 ⟨0, 0, 0⟩
  rw [h3, h4]
  have ht : ((-1 : ℤ)).toNat = 0 := by decide
  rw [ht] at h2
  have h2a : k ≤ 1 := by simpa using h2
  omega

/-- C3 (amended): for every depth < 0 generateTree returns normally —
the recursion guard `currentDepth > 0` simply fails — emitting exactly
one leaf node and exactly 450 blossom particles instead of raising a
validation error. -/
theorem c3_degenerate_depth_returns_normally (K : Type) [LinearOrderedField K] [FloorRing K]
    (M : MathLib K) (rng : ℕ → I01 K) (depth : ℤ) (branchLength : K) (startPos : V3 K)
    (hdep : depth < 0) :
    (generateTree M rng depth branchLength startPos).leafNodes.length = 1 ∧
    (generateTree M rng depth branchLength startPos).blossoms.sizes.length = 450 := by
  obtain ⟨k, h1, h2, h3, h4⟩ := generateTreeState_counts M rng 0 depth branchLength startPos
  have ht : depth.toNat = 0 := by omega
  rw [ht] at h2
  have hk : k = 1 := by
    have h2a : k ≤ 1 := by simpa using h2
    omega
  have hl : (generateTree M rng depth branchLength startPos).leafNodes.length = k := h3
  have hb : (generateTree M rng depth branchLength startPos).blossoms.sizes.length = 450 * k := h4
  omega

/-- Witness for C3 (amended) at concrete inputs. -/
theorem c3_degenerate_depth_witness :
    (-1 : ℤ) < 0 ∧
    ((generateTree (zeroML (K := ℚ)) zeroRng (-1) 20 ⟨0, 0, 0⟩).leafNodes.length = 1 ∧
     (generateTree (zeroML (K := ℚ)) zeroRng (-1) 20 ⟨0, 0, 0⟩).blossoms.sizes.length = 450) :=
  ⟨by decide, c3_degenerate_depth_returns_normally ℚ zeroML zeroRng (-1) 20 ⟨0, 0, 0⟩ (by decide)⟩

/-- C4 counterexample: the Scene's expansion update does NOT hold the
last target.  One OPEN_HAND frame (delta 1/4) moves the value from 0 to
1/2; the following NONE frame leaves it exactly at 1/2 (frozen), whereas
continuing toward the last target 1 — as the claim states — would give
lerp(1/2, 1, 1/2) = 3/4. -/
theorem c4_counterexample_freeze :
    expansionStep (K := ℝ) (expansionStep 0 Gesture.OPEN_HAND (1 / 4)) Gesture.NONE (1 / 4)
      = expansionStep (K := ℝ) 0 Gesture.OPEN_HAND (1 / 4) ∧
    expansionStep (K := ℝ) 0 Gesture.OPEN_HAND (1 / 4) = 1 / 2 ∧
    lerpS (K := ℝ) (1 / 2) 1 ((1 / 4) * 2) = 3 / 4 := by
  refine ⟨?_, ?_, ?_⟩ <;>
    first
      | (simp [expansionStep, lerpS]; norm_num)
      | simp [expansionStep, lerpS]
      | norm_num [expansionStep, lerpS]

/-- C4 (amended): on every frame whose gesture is neither FIST nor
OPEN_HAND, targetExpansion is re-initialized to the current expansion
value, so the lerp leaves the value exactly unchanged: the expansion
freezes where it is instead of continuing toward the last set target. -/
theorem c4_nonexpand_gesture_freezes (K : Type) [LinearOrderedField K] [FloorRing K]
    (v delta : K) (g : Gesture) (h1 : g ≠ Gesture.FIST) (h2 : g ≠ Gesture.OPEN_HAND) :
    expansionStep v g delta = v := by
  simp [expansionStep, lerpS, h1, h2]

/-- Witness for C4 (amended) at concrete inputs. -/
theorem c4_nonexpand_gesture_freezes_witness :
    Gesture.ONE_FINGER ≠ Gesture.FIST ∧ Gesture.ONE_FINGER ≠ Gesture.OPEN_HAND ∧
    expansionStep (K := ℚ) (3 / 10) Gesture.ONE_FINGER 1 = 3 / 10 :=
  ⟨by decide, by decide,
   c4_nonexpand_gesture_freezes ℚ (3 / 10) 1 Gesture.ONE_FINGER (by decide) (by decide)⟩

/-- C5: with the real mathematical functions (Math.sin = Real.sin etc.),
every wood and every blossom particle's galaxy-mode target position lies
at Euclidean distance within [80, 200] of the origin, and every photo
entity's galaxy-mode target position lies within [100, 200]. -/
theorem c5_galaxy_targets_in_shell (rng : ℕ → I01 ℝ) (c : ℕ) (dep : ℤ) (len : ℝ)
    (start : V3 ℝ) (shuffle : ShuffleFn ℝ) (leafNodes : List (V3 ℝ)) (count c2 : ℕ) :
    List.Forall (inShell 80 200)
      (generateTreeState (⟨Real.sin, Real.cos, Real.arccos, Real.sqrt,
        fun x => Real.rpow x (1 / 3), Real.rpow, Real.pi⟩ : MathLib ℝ)
        rng c dep len start).woodB.targetPositions ∧
    List.Forall (inShell 80 200)
      (generateTreeState (⟨Real.sin, Real.cos, Real.arccos, Real.sqrt,
        fun x => Real.rpow x (1 / 3), Real.rpow, Real.pi⟩ : MathLib ℝ)
        rng c dep len start).blossomB.targetPositions ∧
    List.Forall (fun p : PhotoData ℝ => inShell 100 200 p.targetSpacePos)
      (createPhotoData (⟨Real.sin, Real.cos, Real.arccos, Real.sqrt,
        fun x => Real.rpow x (1 / 3), Real.rpow, Real.pi⟩ : MathLib ℝ)
        rng shuffle leafNodes count c2).1 := by
  have h := generateTreeState_shell (⟨Real.sin, Real.cos, Real.arccos, Real.sqrt,
    fun x => Real.rpow x (1 / 3), Real.rpow, Real.pi⟩ : MathLib ℝ) rfl rfl rng c dep len start
  exact ⟨h.1, h.2, createPhotoData_targets_shell _ rfl rfl rng shuffle leafNodes count c2⟩

/-- C6: createPhotoData returns exactly min(count, leafNodes.length)
photo entities (in particular zero, not an error, for an empty leaf
list), and their tree-mode anchor nodes form a sub-permutation of the
leaf-node list, so no leaf node is used twice. -/
theorem c6_photo_assignment (K : Type) [LinearOrderedField K] [FloorRing K]
    (M : MathLib K) (rng : ℕ → I01 K) (shuffle : ShuffleFn K)
    (leafNodes : List (V3 K)) (count c : ℕ) :
    (createPhotoData M rng shuffle leafNodes count c).1.length = min count leafNodes.length ∧
    ∃ chosen : List (V3 K), chosen.Subperm leafNodes ∧
      (createPhotoData M rng shuffle leafNodes count c).1.map PhotoData.position
        = chosen.map (fun nd => nd.add ⟨0, -10, 0⟩) :=
  ⟨createPhotoData_length M rng shuffle leafNodes count c,
   createPhotoData_positions M rng shuffle leafNodes count c⟩

/-- C7 counterexample: the claim quantifies over every fixed positive
per-frame delta, but with delta = 1 the very first OPEN_HAND frame puts
the expansion value at 2, exceeding 1. -/
theorem c7_counterexample_overshoot :
    expansionSeq (K := ℝ) 1 1 = 2 ∧ (1 : ℝ) < expansionSeq (K := ℝ) 1 1 := by
  have h : expansionSeq (K := ℝ) 1 1 = 2 := by
    show expansionStep (K := ℝ) (expansionSeq 1 0) Gesture.OPEN_HAND 1 = 2
    show expansionStep (K := ℝ) 0 Gesture.OPEN_HAND 1 = 2
    norm_num [expansionStep, lerpS]
  exact ⟨h, by rw [h]; norm_num⟩

/-- C7 (amended): for a fixed per-frame delta with 0 < delta and
delta · 2 < 1, the expansion sequence starting at 0 under a sustained
OPEN_HAND gesture strictly increases every frame, never reaches or
exceeds 1, and converges to 1. -/
theorem c7_smoothing_monotone_bounded (delta : ℝ) (h1 : 0 < delta) (h2 : delta * 2 < 1) :
    (∀ n, expansionSeq delta n < expansionSeq delta (n + 1)) ∧
    (∀ n, expansionSeq delta n < 1) ∧
    Filter.Tendsto (expansionSeq delta) Filter.atTop (nhds 1) := by
  have hr0 : (0 : ℝ) < 1 - delta * 2 := by linarith
  have hr1 : 1 - delta * 2 < 1 := by linarith
  refine ⟨?_, ?_, ?_⟩
  · intro n
    rw [expansionSeq_closed, expansionSeq_closed]
    have hp : 0 < (1 - delta * 2) ^ n := pow_pos hr0 n
    have hstep : (1 - delta * 2) ^ (n + 1) < (1 - delta * 2) ^ n := by
      rw [pow_succ]
      nlinarith
    linarith
  · intro n
    rw [expansionSeq_closed]
    have hp : 0 < (1 - delta * 2) ^ n := pow_pos hr0 n
    linarith
  · have hten : Filter.Tendsto (fun n => (1 - delta * 2) ^ n) Filter.atTop (nhds 0) :=
      tendsto_pow_atTop_nhds_zero_of_lt_one (le_of_lt hr0) hr1
    have hsub := hten.const_sub (1 : ℝ)
    rw [sub_zero] at hsub
    exact hsub.congr fun n => (expansionSeq_closed delta n).symm

/-- Witness for C7 (amended) at delta = 1/4. -/
theorem c7_smoothing_witness :
    (0 : ℝ) < 1 / 4 ∧ (1 / 4 : ℝ) * 2 < 1 ∧
    (∀ n, expansionSeq (K := ℝ) (1 / 4) n < expansionSeq (K := ℝ) (1 / 4) (n + 1)) :=
  ⟨by norm_num, by norm_num,
   (c7_smoothing_monotone_bounded (1 / 4) (by norm_num) (by norm_num)).1⟩

/-- C8 (supporting theorem for the code bug): the photo entities built
at scene setup hang below leaf nodes of the SECOND generateTree
invocation — the tree whose particles are never rendered — not of the
rendered tree from the first invocation. -/
theorem c8_photos_anchor_to_second_tree (K : Type) [LinearOrderedField K] [FloorRing K]
    (M : MathLib K) (rng : ℕ → I01 K) (shuffle : ShuffleFn K) :
    List.Forall (fun p : PhotoData K =>
        ∃ leaf, leaf ∈ (sceneSecondTree M rng).1.leafNodes ∧ p.position = leaf.add ⟨0, -10, 0⟩)
      (scenePhotos M rng shuffle) := by
  obtain ⟨chosen, hsub, hmap⟩ := createPhotoData_positions M rng shuffle
    (sceneSecondTree M rng).1.leafNodes 16 (sceneSecondTree M rng).2
  rw [List.forall_iff_forall_mem]
  intro p hp
  have hpos : p.position ∈ (scenePhotos M rng shuffle).map PhotoData.position :=
    List.mem_map_of_mem _ hp
  have hmap2 : (scenePhotos M rng shuffle).map PhotoData.position
      = chosen.map (fun nd => nd.add ⟨0, -10, 0⟩) := hmap
  rw [hmap2] at hpos
  obtain ⟨nd, hnd, heq⟩ := List.mem_map.mp hpos
  exact ⟨nd, hsub.subset hnd, heq.symm⟩

/-- C9 counterexample: the claim asserts that a trunk branch count of 5
(and a non-trunk count of 4) is attained for some outcome of the random
source; in fact no sample in [0,1) ever produces them, because
randomRange(3,5) lies in the half-open interval [3,5) and Math.floor of
it is at most 4 (resp. randomRange(2,4) < 4, floor at most 3). -/
theorem c9_counterexample_never_five :
    ((∃ u : I01 ℝ, branchCountOf true u.val = 5) ∨
     (∃ u : I01 ℝ, branchCountOf false u.val = 4)) ↔ False := by
  constructor
  · rintro (⟨u, hu⟩ | ⟨u, hu⟩)
    · have hbd := (branchCount_trunk_bounds u.val u.2.1 u.2.2).2
      omega
    · have hbd := (branchCount_nontrunk_bounds u.val u.2.1 u.2.2).2
      omega
  · intro h
    exact h.elim

/-- C9 (amended): at every recursion step the trunk spawns between 3 and
4 children and every other branch between 2 and 3 (floor of a uniform
sample of [3,5) resp. [2,4)); each of those values is attained for some
outcome of the random source (5 and 4 respectively are not). -/
theorem c9_branch_count_range :
    (∀ (K : Type) [LinearOrderedField K] [FloorRing K] (u : I01 K),
      (3 ≤ branchCountOf true u.val ∧ branchCountOf true u.val ≤ 4) ∧
      (2 ≤ branchCountOf false u.val ∧ branchCountOf false u.val ≤ 3)) ∧
    (∃ u : I01 ℝ, branchCountOf true u.val = 3) ∧
    (∃ u : I01 ℝ, branchCountOf true u.val = 4) ∧
    (∃ u : I01 ℝ, branchCountOf false u.val = 2) ∧
    (∃ u : I01 ℝ, branchCountOf false u.val = 3) := by
  have ht3 : branchCountOf true (0 : ℝ) = 3 := by
    have h1 : branchCountOf true (0 : ℝ) = ⌊rr (3 : ℝ) 5 0⌋ := by simp [branchCountOf]
    rw [h1, show rr (3 : ℝ) 5 0 = ((3 : ℤ) : ℝ) from by norm_num [rr], Int.floor_intCast]
  have ht4 : branchCountOf true (1 / 2 : ℝ) = 4 := by
    have h1 : branchCountOf true (1 / 2 : ℝ) = ⌊rr (3 : ℝ) 5 (1 / 2)⌋ := by simp [branchCountOf]
    rw [h1, show rr (3 : ℝ) 5 (1 / 2) = ((4 : ℤ) : ℝ) from by norm_num [rr], Int.floor_intCast]
  have hf2 : branchCountOf false (0 : ℝ) = 2 := by
    have h1 : branchCountOf false (0 : ℝ) = ⌊rr (2 : ℝ) 4 0⌋ := by simp [branchCountOf]
    rw [h1, show rr (2 : ℝ) 4 0 = ((2 : ℤ) : ℝ) from by norm_num [rr], Int.floor_intCast]
  have hf3 : branchCountOf false (1 / 2 : ℝ) = 3 := by
    have h1 : branchCountOf false (1 / 2 : ℝ) = ⌊rr (2 : ℝ) 4 (1 / 2)⌋ := by simp [branchCountOf]
    rw [h1, show rr (2 : ℝ) 4 (1 / 2) = ((3 : ℤ) : ℝ) from by norm_num [rr], Int.floor_intCast]
  refine ⟨?_, ⟨⟨0, by norm_num⟩, ht3⟩, ⟨⟨1 / 2, by norm_num⟩, ht4⟩,
    ⟨⟨0, by norm_num⟩, hf2⟩, ⟨⟨1 / 2, by norm_num⟩, hf3⟩⟩
  intro K _ _ u
  exact ⟨branchCount_trunk_bounds u.val u.2.1 u.2.2,
         branchCount_nontrunk_bounds u.val u.2.1 u.2.2⟩

/-- C10: every terminal branch records one leaf node and emits exactly
450 blossom particles (5 clusters of 90), so the blossom particle count
of any generated tree is exactly 450 times its leaf-node count. -/
theorem c10_blossoms_equal_450_per_leaf (K : Type) [LinearOrderedField K] [FloorRing K]
    (M : MathLib K) (rng : ℕ → I01 K) (depth : ℤ) (branchLength : K) (startPos : V3 K) :
    (generateTree M rng depth branchLength startPos).blossoms.sizes.length
      = 450 * (generateTree M rng depth branchLength startPos).leafNodes.length := by
  obtain ⟨k, h1, h2, h3, h4⟩ := generateTreeState_counts M rng 0 depth branchLength startPos
  have hl : (generateTree M rng depth branchLength startPos).leafNodes.length = k := h3
  have hb : (generateTree M rng depth branchLength startPos).blossoms.sizes.length = 450 * k := h4
  omega

end Sakura
